import Mathlib

/-!
Verification development for the statistics aggregation engine of the
`drones` repository (`src/drones/statistics.py`).

The SQL queries issued through SQLAlchemy are shallowly embedded as pure
functions over in-memory lists of journal entries and entry tags.
Conventions used throughout:

* Timestamps (`created_at`) are natural numbers.  For the retention
  analysis the unit is days, so `date_trunc('week', t)` becomes
  `t / 7 * 7` and `timedelta(weeks=1)` becomes `+ 7`.  For the timescale
  tables (`timescales_delta`) durations are expressed in seconds.
* An SQL inner join of the tag table with the entry table on
  `journal_entry_id = entries.id` is a `flatMap` producing one row per
  matching (tag, entry) pair.
* `LIKE 'p%'` on a tag string is the `likeMatch` character-list
  comparison (structurally recursive, so concrete instances evaluate).
* Python `math.log` / float arithmetic is modelled by exact real
  arithmetic with `Real.log`; integer division `count / total` by real
  division of the casts; Python `ZeroDivisionError` by an `Except.error`.
* Result dictionaries keyed by tag are modelled as association lists or
  as the per-key lookup function; insertion order follows query order.
-/

/-- A row of the `journal_entries` table (the fields the statistics code
touches). -/
structure JournalEntry where
  id : Nat
  journal_id : Nat
  created_at : Nat
deriving DecidableEq, Repr

/-- A row of the `journal_entry_tags` table. -/
structure JournalEntryTag where
  id : Nat
  journal_entry_id : Nat
  tag : String
  created_at : Nat
deriving DecidableEq, Repr

/-- The database snapshot a statistics computation reads. -/
structure JournalDB where
  entries : List JournalEntry
  tags : List JournalEntryTag
deriving Repr

/-- A `filter_condition` argument: either the Python literal `True`
(`filter_condition == True` succeeds, "match all") or an SQL predicate
over the tag string (`LIKE`, `IN`, ...).  The structural distinction
matters because `generate_highest_entropy_tags` and `entries_by_days`
branch on `filter_condition == True`. -/
inductive TagFilter where
  | all : TagFilter
  | cond : (String → Bool) → TagFilter

/-- The predicate a `TagFilter` denotes on tag strings. -/
def TagFilter.holds : TagFilter → String → Bool
  | .all, _ => true
  | .cond p, s => p s

/-- The `tag LIKE 'pat%'` test: the pattern's characters are an initial
segment of the tag string's characters. -/
def likeMatch (pat s : String) : Bool :=
  pat.data.isPrefixOf s.data

/-- Join/filter condition shared by the tag-scoped queries: the entry is
the tag row's entry, belongs to the requested journal, and its
`created_at` lies strictly inside `(start, stop)` (the source filters
`JournalEntry.created_at > start` and `< end`). -/
def entryMatches (jid start stop : Nat) (t : JournalEntryTag) (e : JournalEntry) : Bool :=
  e.id == t.journal_entry_id && e.journal_id == jid &&
    decide (start < e.created_at) && decide (e.created_at < stop)

/-- The joined tag rows common to `generate_tags_time_series`,
`generate_most_used_tags_summary`, `generate_events_summary` and the
tag-count query of `generate_highest_entropy_tags`: tags joined to their
entries, restricted to the journal, the window on the entry's
`created_at`, and the tag predicate.  One row per (tag row, matching
entry) pair, as an SQL inner join produces. -/
def matchRows (db : JournalDB) (jid : Nat) (filt : String → Bool)
    (start stop : Nat) : List JournalEntryTag :=
  db.tags.flatMap (fun t =>
    (((db.entries.filter (entryMatches jid start stop t)).map (fun _ => t)).filter
      (fun t2 => filt t2.tag)))

/-- Model of `generate_series(start, stop, step)`: the dense ascending sequence
`start, start + step, ...` of points not exceeding `stop` (empty when
`stop < start`; a zero step, an error in Postgres, is mapped to the
empty series). -/
def densePoints (start stop step : Nat) : List Nat :=
  if step = 0 || stop < start then []
  else (List.range ((stop - start) / step + 1)).map (fun i => start + i * step)

/-- The `tags_requested` subquery: distinct tag strings among the
matching rows. -/
def distinctMatchingTags (db : JournalDB) (jid : Nat) (filt : String → Bool)
    (start stop : Nat) : List String :=
  ((matchRows db jid filt start stop).map (fun t => t.tag)).dedup

/-- The `tags_counts` grouping: number of matching tag rows carrying tag
string `s` whose own `created_at` falls in display bucket `b` (the
source groups by `to_char(JournalEntryTag.created_at, time_mask)`,
modelled by the bucketing function `mask`). -/
def bucketCount (rows : List JournalEntryTag) (mask : Nat → Nat) (b : Nat) (s : String) : Nat :=
  (rows.filter (fun t => t.tag == s && mask t.created_at == b)).length

/-- The joined `tags_time_series` rows: the skeleton (dense series
crossed with the distinct tags) left-joined with the per-bucket counts;
`coalesce` turns a missed join into 0, which here is just the count of
an empty fibre.  Each row is `(bucket, tag, count)`. -/
def timeSeriesRows (db : JournalDB) (jid : Nat) (filt : String → Bool)
    (mask : Nat → Nat) (start stop step : Nat) : List (Nat × String × Nat) :=
  let rows := matchRows db jid filt start stop
  (densePoints start stop step).flatMap (fun p =>
    (distinctMatchingTags db jid filt start stop).map (fun s =>
      (mask p, s, bucketCount rows mask (mask p) s)))

/-- Model of `generate_tags_time_series`: rows ordered by bucket descending and
grouped into the per-tag response dictionary; the value at key `s` is
its list of `(bucket, count)` records. -/
def generate_tags_time_series (db : JournalDB) (jid : Nat) (filt : String → Bool)
    (mask : Nat → Nat) (start stop step : Nat) (s : String) : List (Nat × Nat) :=
  (((timeSeriesRows db jid filt mask start stop step).mergeSort
      (fun a b => decide (b.1 ≤ a.1))).filter
    (fun r => r.2.1 == s)).map (fun r => (r.1, r.2.2))

/-- Grouping of tag rows by tag string with `count(id)` per group, as in
`generate_most_used_tags_summary` and the entropy ranking. -/
def tagGroupCounts (rows : List JournalEntryTag) : List (String × Nat) :=
  ((rows.map (fun t => t.tag)).dedup).map
    (fun s => (s, rows.countP (fun t => t.tag == s)))

/-- Model of `generate_most_used_tags_summary`: group matching tags by string,
order by count descending, keep the first 10. -/
def generate_most_used_tags_summary (db : JournalDB) (jid : Nat) (filt : String → Bool)
    (start stop : Nat) : List (String × Nat) :=
  ((tagGroupCounts (matchRows db jid filt start stop)).mergeSort
    (fun a b => decide (b.2 ≤ a.2))).take 10

/-- The `entropy` function of the source, over exact reals:
`(count/total)*log(total/count) + ((total-count)/total)*log(total/(total-count))`.
`Real.log` agrees with `math.log` only on positive arguments; on the
source's success path (`0 < count < total`) both arguments are positive,
and the regimes where Python raises instead — `count == 0` or
`count == total` (a log of 0 or a division by 0) and `count > total`
(`math.log` of a negative number, `ValueError`) — are kept out of this
value by the caller, `scoreStep`, which reproduces those errors before
the value is used. -/
noncomputable def entropy (count total : ℕ) : ℝ :=
  ((count : ℝ) / (total : ℝ)) * Real.log ((total : ℝ) / (count : ℝ)) +
    (((total : ℝ) - (count : ℝ)) / (total : ℝ)) *
      Real.log ((total : ℝ) / ((total : ℝ) - (count : ℝ)))

/-- The per-tag score assigned by the loop of
`generate_highest_entropy_tags` when no error is raised: 0 when
`count == 0` or `count / total == 1`, otherwise `entropy count total`. -/
noncomputable def tagScore (count total : ℕ) : ℝ :=
  if count = 0 ∨ ((count : ℝ) / (total : ℝ)) = 1 then 0 else entropy count total

/-- One iteration of the scoring loop, with Python's evaluation order:
`count == 0` short-circuits; otherwise `count / entries_total_count` is
evaluated, raising `ZeroDivisionError` when the entry total is 0; when
the quotient is 1 (exactly when `count = total` here) the score is 0;
otherwise `entropy(count, total)` runs, and its second log receives
`total / (total - count)`, which is negative when `count > total` (a
tag string occurring on more rows than there are entries), so
`math.log` raises `ValueError: math domain error`; only past all of
that is the entropy value produced. -/
noncomputable def scoreStep (total count : ℕ) : Except String ℝ :=
  if count = 0 then .ok 0
  else if total = 0 then .error "ZeroDivisionError"
  else if ((count : ℝ) / (total : ℝ)) = 1 then .ok 0
  else if total < count then .error "ValueError: math domain error"
  else .ok (tagScore count total)

/-- The scoring loop over the grouped tag counts; the first failing
iteration aborts the computation, as a raised exception would. -/
noncomputable def loopScores (total : ℕ) : List (String × ℕ) → Except String (List (String × ℝ))
  | [] => .ok []
  | (s, c) :: rest =>
    match scoreStep total c with
    | .error e => .error e
    | .ok v =>
      match loopScores total rest with
      | .error e => .error e
      | .ok vs => .ok ((s, v) :: vs)

/-- The `entries_query.count()` of `generate_highest_entropy_tags`:
entries of the journal inside the window that pass the tag filter —
all of them when `filter_condition == True`, otherwise those with an
existing tag satisfying the predicate. -/
def entriesCount (db : JournalDB) (jid : Nat) (f : TagFilter) (start stop : Nat) : Nat :=
  (db.entries.filter (fun e =>
    e.journal_id == jid &&
      (match f with
       | .all => true
       | .cond p => db.tags.any (fun t => t.journal_entry_id == e.id && p t.tag)) &&
      decide (start < e.created_at) && decide (e.created_at < stop))).length

/-- Model of `generate_highest_entropy_tags`: score every grouped tag against the
entry total, sort by score descending, keep the first 10; an uncaught
`ZeroDivisionError` surfaces as `Except.error`. -/
noncomputable def generate_highest_entropy_tags (db : JournalDB) (jid : Nat)
    (f : TagFilter) (start stop : Nat) : Except String (List (String × ℝ)) :=
  let total := entriesCount db jid f start stop
  match loopScores total (tagGroupCounts (matchRows db jid f.holds start stop)) with
  | .error e => .error e
  | .ok unsorted =>
    .ok ((unsorted.mergeSort (fun a b => decide (b.2 ≤ a.2))).take 10)

/-- The `entry_ids_with_tag` rows of `generate_events_summary` for a
LIKE pattern `pat` (`"<event_name>:"` or `"error:"`): pairs of the
entry id and the full tag string. -/
def eventRows (db : JournalDB) (jid : Nat) (pat : String) (start stop : Nat) :
    List (Nat × String) :=
  (matchRows db jid (likeMatch pat) start stop).map
    (fun t => (t.journal_entry_id, t.tag))

/-- The `events_with_error_counts` join rows: one row per (event row,
error row with the same entry id) pair, keyed by the event label. -/
def coOccurrenceRows (db : JournalDB) (jid : Nat) (event_name : String)
    (start stop : Nat) : List (Nat × String) :=
  (eventRows db jid (event_name ++ ":") start stop).flatMap (fun ev =>
    ((eventRows db jid "error:" start stop).filter (fun er => er.1 == ev.1)).map
      (fun _ => ev))

/-- Grouping of (entry id, label) rows by label with row count per
group, as both `events_counts` and `events_with_error_counts` do. -/
def labelGroupCounts (rows : List (Nat × String)) : List (String × Nat) :=
  ((rows.map (fun r => r.2)).dedup).map
    (fun s => (s, rows.countP (fun r => r.2 == s)))

/-- A count-distribution histogram: group the per-label counts by their
value, count labels per value, order by that label count descending
(`events_counts_distribution` / `events_with_errors_counts_distribution`). -/
def countsHistogram (groups : List (String × Nat)) : List (Nat × Nat) :=
  (((groups.map (fun g => g.2)).dedup).map
    (fun c => (c, groups.countP (fun g => g.2 == c)))).mergeSort
      (fun a b => decide (b.2 ≤ a.2))

/-- The `"0"` bucket `generate_events_summary` inserts into
`errors_histogram`: the running total of `events_histogram` minus the
running total of `errors_histogram`, each total summed over its
distribution rows. -/
def errorsHistogramZero (db : JournalDB) (jid : Nat) (event_name : String)
    (start stop : Nat) : Nat :=
  let evGroups := labelGroupCounts (eventRows db jid (event_name ++ ":") start stop)
  let erGroups := labelGroupCounts (coOccurrenceRows db jid event_name start stop)
  ((countsHistogram evGroups).map (fun h => h.2)).sum -
    ((countsHistogram erGroups).map (fun h => h.2)).sum

/-- Whether event label `l` co-occurs with at least one `error:` tag:
some event row carries `l` on an entry that also has an error row. -/
def hasErrorCoOccurrence (db : JournalDB) (jid : Nat) (event_name : String)
    (start stop : Nat) (l : String) : Bool :=
  (eventRows db jid (event_name ++ ":") start stop).any (fun ev =>
    ev.2 == l && (eventRows db jid "error:" start stop).any (fun er => er.1 == ev.1))

/-- The quantity the spec describes for the `"0"` bucket: the number of
distinct event labels minus the number of event labels co-occurring
with at least one `error:` tag. -/
def specZeroBucket (db : JournalDB) (jid : Nat) (event_name : String)
    (start stop : Nat) : Nat :=
  let labels := ((eventRows db jid (event_name ++ ":") start stop).map (fun r => r.2)).dedup
  labels.length - (labels.filter (hasErrorCoOccurrence db jid event_name start stop)).length

/-- The `clients_events` CTE of `week_to_week_retention`: distinct
(client tag string, week) pairs for `client:%` tags of the journal,
where the week is `date_trunc('week', tag.created_at)` (timestamps in
days, so `t / 7 * 7`) and the window filters the tag's `created_at`. -/
def clientWeekPairs (db : JournalDB) (jid : Nat) (start stop : Nat) : List (String × Nat) :=
  (((db.tags.flatMap (fun t =>
      (db.entries.filter (fun e =>
        e.id == t.journal_entry_id && e.journal_id == jid)).map (fun _ => t))).filter
    (fun t => likeMatch "client:" t.tag &&
      decide (start < t.created_at) && decide (t.created_at < stop))).map
    (fun t => (t.tag, t.created_at / 7 * 7))).dedup

/-- The `transitions` CTE: clients present in a week and in the
following week (`week2 = week1 + 1 week`), as `(client, week1, week2)`. -/
def retentionTransitions (db : JournalDB) (jid : Nat) (start stop : Nat) :
    List (String × Nat × Nat) :=
  (clientWeekPairs db jid start stop).flatMap (fun a =>
    ((clientWeekPairs db jid start stop).filter
      (fun b => b.2 == a.2 + 7 && b.1 == a.1)).map (fun b => (a.1, a.2, b.2)))

/-- Model of `week_to_week_retention`: for every week of `clients_events`, the
distinct-client count (`wau`) and the distinct count of clients of
transitions landing in that week (`num_returning_clients`, 0 when the
outer join finds none).  Rows are `(week, wau, num_returning_clients)`. -/
def week_to_week_retention (db : JournalDB) (jid : Nat) (start stop : Nat) :
    List (Nat × Nat × Nat) :=
  let ce := clientWeekPairs db jid start stop
  ((ce.map (fun r => r.2)).dedup).map (fun w =>
    (w,
      ((ce.filter (fun r => r.2 == w)).map (fun r => r.1)).dedup.length,
      (((retentionTransitions db jid start stop).filter
         (fun r => r.2.2 == w)).map (fun r => r.1)).dedup.length))

/-- The filter value `get_statistics` builds and hands to the
rankers/builders: the Python literal `True`, a `tag.like(p + "%")`
pattern, or a `tag.in_(set)` membership test. -/
inductive FilterK where
  | all : FilterK
  | likePat : String → FilterK
  | inSet : List String → FilterK
deriving DecidableEq, Repr

/-- The ranker/builder sub-computations `get_statistics` invokes,
abstracted as oracles so that any of them may raise (`Except.error`).
The two rankers also expose the label lists of their result
dictionaries, which `get_statistics` reads to build the `tag.in_`
filter for the time series. -/
structure SubOracles (V : Type) where
  entriesByDays : FilterK → Except String V
  eventsSummary : String → Except String (List (String × V))
  retention : Except String (List (String × V))
  highestEntropy : FilterK → Except String (List String × V)
  mostUsed : FilterK → Except String (List String × V)
  timeSeries : FilterK → Except String V

/-- The document `get_statistics` returns. -/
structure StatsDoc (V : Type) where
  created_at : String
  schema : String
  data : List (String × V)
deriving DecidableEq, Repr

/-- The versioned schema URL of the response. -/
def schemaUrl (stype : String) : String :=
  "https://github.com/bugout-dev/schemas/blob/main/drones/statistics/" ++ stype ++
    "_v5.schema.json"

/-- The `session`/`client` branch of `get_statistics`: the `data` dict
it has accumulated when the `try` block finishes or its first
sub-computation raises.  Order of events: `entries` (only for the
`year` timescale), then the events summary is computed, then for
`client` the retention dict is merged, then the events summary dict is
merged. -/
def sessionBranch {V : Type} (o : SubOracles V) (stype timescale : String) :
    List (String × V) :=
  let step1 : Except String (List (String × V)) :=
    if timescale = "year" then
      match o.entriesByDays (.likePat (stype ++ ":")) with
      | .error e => .error e
      | .ok v => .ok [("entries", v)]
    else .ok []
  match step1 with
  | .error _ => []
  | .ok d1 =>
    match o.eventsSummary stype with
    | .error _ => d1
    | .ok ev =>
      if stype = "client" then
        match o.retention with
        | .error _ => d1
        | .ok ret => d1 ++ ret ++ ev
      else d1 ++ ev

/-- The `errors`/`stats`/other branch of `get_statistics`.  The filter
is the `error:` pattern for `errors` and `True` otherwise; `entries` is
computed only for `year`; the entropy and frequency rankers run next
(their results are held in locals); for `stats` the time-series filter
becomes membership in the union of the two rankers' labels; finally the
three result keys are written, named `most_common_errors` /
`errors_time_series` for `errors` and `most_common_tags` / `tags`
otherwise. -/
def statsBranch {V : Type} (o : SubOracles V) (stype timescale : String) :
    List (String × V) :=
  let filter0 : FilterK := if stype = "errors" then .likePat "error:" else .all
  let step1 : Except String (List (String × V)) :=
    if timescale = "year" then
      match o.entriesByDays filter0 with
      | .error e => .error e
      | .ok v => .ok [("entries", v)]
    else .ok []
  match step1 with
  | .error _ => []
  | .ok d1 =>
    match o.highestEntropy filter0 with
    | .error _ => d1
    | .ok he =>
      match o.mostUsed filter0 with
      | .error _ => d1
      | .ok mu =>
        let tsFilter : FilterK :=
          if stype = "stats" then .inSet ((mu.1 ++ he.1).dedup) else filter0
        match o.timeSeries tsFilter with
        | .error _ => d1
        | .ok ts =>
          if stype = "errors" then
            d1 ++ [("most_common_errors", mu.2), ("highest_entropy_tags", he.2),
              ("errors_time_series", ts)]
          else
            d1 ++ [("most_common_tags", mu.2), ("highest_entropy_tags", he.2),
              ("tags", ts)]

/-- Model of `get_statistics`: build the response skeleton (`created_at`,
`schema`, empty `data`), dispatch on the statistics type, and fill
`data` with whatever the chosen branch accumulated before finishing or
failing; every exception inside a branch is caught there. -/
def get_statistics {V : Type} (now : String) (o : SubOracles V)
    (stype timescale : String) : StatsDoc V :=
  { created_at := now
    schema := schemaUrl stype
    data :=
      if stype = "session" ∨ stype = "client" then sessionBranch o stype timescale
      else statsBranch o stype timescale }

/-- Oracles that all raise, to exercise the exception paths. -/
def failingOracles (V : Type) (e : String) : SubOracles V :=
  { entriesByDays := fun _ => .error e
    eventsSummary := fun _ => .error e
    retention := .error e
    highestEntropy := fun _ => .error e
    mostUsed := fun _ => .error e
    timeSeries := fun _ => .error e }

/-- The `timescales_params` table of the source, verbatim: the Postgres
interval string for the bucket step and the `to_char` display mask. -/
def timescales_params : List (String × String × String) :=
  [("year", "1 day", "YYYY-MM-DD"),
   ("month", "1 day", "YYYY-MM-DD"),
   ("week", "1 day", "YYYY-MM-DD"),
   ("day", "1 hours", "YYYY-MM-DD HH24")]

/-- The `timescales_delta` lookback table, with each `timedelta`
expressed in seconds: `timedelta(days=364)`, `timedelta(days=27)`,
`timedelta(days=6)`, `timedelta(hours=24)`. -/
def timescales_delta : List (String × Nat) :=
  [("year", 364 * 86400),
   ("month", 27 * 86400),
   ("week", 6 * 86400),
   ("day", 24 * 3600)]

/-- Modelled from the spec: the duration in seconds a Postgres interval
literal used by the source denotes when `generate_series` consumes it
(the interval parser itself is external to the repository). -/
def stepSeconds : String → Option Nat
  | "1 day" => some 86400
  | "1 hours" => some 3600
  | _ => none

/-- The bucket step (in seconds) the timescale resolves to. -/
def stepOf (timescale : String) : Option Nat :=
  match timescales_params.lookup timescale with
  | some p => stepSeconds p.1
  | none => none

/-- The display mask the timescale resolves to. -/
def maskOf (timescale : String) : Option String :=
  (timescales_params.lookup timescale).map (fun p => p.2)

/-- The lookback duration (in seconds) the timescale resolves to. -/
def lookbackOf (timescale : String) : Option Nat :=
  timescales_delta.lookup timescale

/-- Fixture: one journal entry carrying one tag, for evaluating the
time-series builder on a concrete window. -/
def dbTiny : JournalDB :=
  { entries := [{ id := 1, journal_id := 1, created_at := 5 }]
    tags := [{ id := 1, journal_entry_id := 1, tag := "t", created_at := 5 }] }

/-- Fixture: one journal entry carrying the same tag string twice, so
the tag's group count (2) exceeds the entry total (1). -/
def dbDup : JournalDB :=
  { entries := [{ id := 1, journal_id := 1, created_at := 5 }]
    tags := [{ id := 1, journal_entry_id := 1, tag := "t", created_at := 5 },
             { id := 2, journal_entry_id := 1, tag := "t", created_at := 6 }] }

/-- Fixture: the retention scenario of the spec — clients A, B, C active
in the first week (days 1–3) and B, C, D in the following week (days
8–10), all tags attached to one entry of journal 1. -/
def dbRetention : JournalDB :=
  { entries := [{ id := 1, journal_id := 1, created_at := 1 }]
    tags :=
      [{ id := 1, journal_entry_id := 1, tag := "client:A", created_at := 1 },
       { id := 2, journal_entry_id := 1, tag := "client:B", created_at := 2 },
       { id := 3, journal_entry_id := 1, tag := "client:C", created_at := 3 },
       { id := 4, journal_entry_id := 1, tag := "client:B", created_at := 8 },
       { id := 5, journal_entry_id := 1, tag := "client:C", created_at := 9 },
       { id := 6, journal_entry_id := 1, tag := "client:D", created_at := 10 }] }

/-- Fixture: sub-computation oracles that always succeed with fixed
values, for evaluating the orchestrator dispatch concretely. -/
def constOracles : SubOracles Nat :=
  { entriesByDays := fun _ => .ok 1
    eventsSummary := fun _ => .ok []
    retention := .ok []
    highestEntropy := fun _ => .ok ([], 2)
    mostUsed := fun _ => .ok ([], 3)
    timeSeries := fun _ => .ok 4 }

/-- C9: the timescale resolution tables map year to a 364-day lookback,
month to 27 days, week to 6 days, day to 24 hours, with a 1-day bucket
step for year/month/week, a 1-hour step for day, and an hour-bearing
display mask for day. -/
theorem timescale_tables_resolve :
    lookbackOf "year" = some (364 * 86400) ∧
    lookbackOf "month" = some (27 * 86400) ∧
    lookbackOf "week" = some (6 * 86400) ∧
    lookbackOf "day" = some (24 * 3600) ∧
    stepOf "year" = some 86400 ∧ stepOf "month" = some 86400 ∧
    stepOf "week" = some 86400 ∧ stepOf "day" = some 3600 ∧
    maskOf "year" = some "YYYY-MM-DD" ∧ maskOf "month" = some "YYYY-MM-DD" ∧
    maskOf "week" = some "YYYY-MM-DD" ∧ maskOf "day" = some "YYYY-MM-DD HH24" :=
  ⟨rfl, rfl, rfl, rfl, rfl, rfl, rfl, rfl, rfl, rfl, rfl, rfl⟩

/-- C2: for every positive entry total, the score the entropy-ranking
loop assigns to a tag present in zero entries and to a tag present in
all entries is zero — the boundary convention of the guard, not a limit
computation. -/
theorem entropy_boundary (total : ℕ) (h : 0 < total) :
    tagScore 0 total = 0 ∧ tagScore total total = 0 := by
  constructor
  · rw [tagScore, if_pos (Or.inl rfl)]
  · have ht : (total : ℝ) ≠ 0 := Nat.cast_ne_zero.mpr h.ne'
    rw [tagScore, if_pos (Or.inr (div_self ht))]

/-- Witness for `entropy_boundary` at `total = 3`. -/
theorem entropy_boundary_witness :
    0 < 3 ∧ (tagScore 0 3 = 0 ∧ tagScore 3 3 = 0) :=
  ⟨by decide, entropy_boundary 3 (by decide)⟩

/-- C6: the entropy function is symmetric in presence/absence —
`entropy count total = entropy (total - count) total` whenever
`0 < count < total`. -/
theorem entropy_symm (count total : ℕ) (h1 : 0 < count) (h2 : count < total) :
    entropy count total = entropy (total - count) total := by
  rw [entropy, entropy, Nat.cast_sub h2.le]
  have h3 : (total : ℝ) - ((total : ℝ) - (count : ℝ)) = (count : ℝ) := by ring
  rw [h3, add_comm]

/-- Witness for `entropy_symm` at `count = 1`, `total = 2`. -/
theorem entropy_symm_witness :
    0 < 1 ∧ 1 < 2 ∧ entropy 1 2 = entropy (2 - 1) 2 :=
  ⟨by decide, by decide, entropy_symm 1 2 (by decide) (by decide)⟩

/-- C8: for every statistics type and timescale, `get_statistics`
returns a document whose `created_at` and `schema` fields are set no
matter what its sub-computations do, and when every sub-computation
raises it still returns the document, with empty `data`; no exception
propagates to the caller. -/
theorem get_statistics_isolates_failures (V : Type) (now : String)
    (o : SubOracles V) (stype timescale e : String) :
    ((get_statistics now o stype timescale).created_at = now ∧
      (get_statistics now o stype timescale).schema = schemaUrl stype) ∧
    get_statistics now (failingOracles V e) stype timescale =
      { created_at := now, schema := schemaUrl stype, data := [] } := by
  refine ⟨⟨rfl, rfl⟩, ?_⟩
  rw [get_statistics]
  by_cases h1 : stype = "session" ∨ stype = "client" <;>
    simp only [h1, if_true, if_false, sessionBranch, statsBranch, failingOracles] <;>
    split_ifs <;> rfl

/-- Sorting an association list with the descending-by-value comparator
yields pairwise non-increasing natural values. -/
theorem pairwise_mergeSort_nat (l : List (String × ℕ)) :
    List.Pairwise (fun a b : String × ℕ => b.2 ≤ a.2)
      (l.mergeSort (fun a b => decide (b.2 ≤ a.2))) := by
  have h := @List.sorted_mergeSort (String × ℕ) (fun a b => decide (b.2 ≤ a.2))
    (fun a b c hab hbc =>
      decide_eq_true (le_trans (of_decide_eq_true hbc) (of_decide_eq_true hab)))
    (fun a b => by rcases le_total b.2 a.2 with h | h <;> simp [h]) l
  exact h.imp (fun hab => of_decide_eq_true hab)

/-- Sorting an association list with the descending-by-value comparator
yields pairwise non-increasing real values. -/
theorem pairwise_mergeSort_real (l : List (String × ℝ)) :
    List.Pairwise (fun a b : String × ℝ => b.2 ≤ a.2)
      (l.mergeSort (fun a b => decide (b.2 ≤ a.2))) := by
  have h := @List.sorted_mergeSort (String × ℝ) (fun a b => decide (b.2 ≤ a.2))
    (fun a b c hab hbc =>
      decide_eq_true (le_trans (of_decide_eq_true hbc) (of_decide_eq_true hab)))
    (fun a b => by rcases le_total b.2 a.2 with h | h <;> simp [h]) l
  exact h.imp (fun hab => of_decide_eq_true hab)

/-- If the entry population of `generate_highest_entropy_tags` is empty,
the matching tag rows are empty too: any matching tag row would make its
own entry pass the existence filter of the entry count. -/
theorem matchRows_nil_of_entriesCount_zero (db : JournalDB) (jid : Nat) (f : TagFilter)
    (start stop : Nat) (h : entriesCount db jid f start stop = 0) :
    matchRows db jid f.holds start stop = [] := by
  cases hm : matchRows db jid f.holds start stop with
  | nil => rfl
  | cons t rest =>
    exfalso
    have ht : t ∈ matchRows db jid f.holds start stop := hm ▸ List.mem_cons_self t rest
    rw [matchRows, List.mem_flatMap] at ht
    obtain ⟨a, ha, hmem⟩ := ht
    rw [List.mem_filter] at hmem
    obtain ⟨hmap, hfilt⟩ := hmem
    rw [List.mem_map] at hmap
    obtain ⟨e, he, hea⟩ := hmap
    have hat : a = t := hea
    subst hat
    rw [List.mem_filter] at he
    obtain ⟨heDB, hem⟩ := he
    rw [entryMatches] at hem
    simp only [Bool.and_eq_true, beq_iff_eq, decide_eq_true_eq] at hem
    obtain ⟨⟨⟨hid, hjid⟩, hstart⟩, hstop⟩ := hem
    rw [entriesCount, List.length_eq_zero, List.filter_eq_nil_iff] at h
    apply h e heDB
    simp only [Bool.and_eq_true, beq_iff_eq, decide_eq_true_eq]
    refine ⟨⟨⟨hjid, ?_⟩, hstart⟩, hstop⟩
    cases f with
    | all => rfl
    | cond p =>
      rw [List.any_eq_true]
      refine ⟨a, ha, ?_⟩
      simp only [Bool.and_eq_true, beq_iff_eq]
      exact ⟨hid.symm, hfilt⟩

/-- C7 counterexample: with the same tag string on two rows of a single
entry, the tag's group count (2) exceeds the entry total (1), the guard
`count / total == 1` fails, and `entropy` hands `math.log` the negative
argument `1 / (1 - 2)`, so the entropy ranking raises `ValueError`
instead of returning a ranking. -/
theorem entropy_ranking_valueerror_counterexample :
    generate_highest_entropy_tags dbDup 1 TagFilter.all 0 9 =
      .error "ValueError: math domain error" := by
  have hg : tagGroupCounts (matchRows dbDup 1 TagFilter.all.holds 0 9) = [("t", 2)] := by
    decide
  have ht : entriesCount dbDup 1 TagFilter.all 0 9 = 1 := by decide
  have hstep : scoreStep 1 2 = .error "ValueError: math domain error" := by
    rw [scoreStep, if_neg (by norm_num), if_neg (by norm_num),
      if_neg (by norm_num), if_pos (by norm_num)]
  simp only [generate_highest_entropy_tags]
  rw [hg, ht]
  simp only [loopScores, hstep]

/-- C7 (amended): the frequency ranking always returns at most 10
entries with non-increasing counts; the entropy ranking may instead
raise (`ValueError` when a tag's row count exceeds the entry total),
but whenever it does return a result, that result has at most 10
entries with non-increasing scores. -/
theorem rankers_top10_sorted (db : JournalDB) (jid : Nat) (p : String → Bool)
    (f : TagFilter) (start stop : Nat) :
    ((generate_most_used_tags_summary db jid p start stop).length ≤ 10 ∧
      List.Pairwise (fun a b : String × ℕ => b.2 ≤ a.2)
        (generate_most_used_tags_summary db jid p start stop)) ∧
    (∀ res, generate_highest_entropy_tags db jid f start stop = Except.ok res →
      res.length ≤ 10 ∧
      List.Pairwise (fun a b : String × ℝ => b.2 ≤ a.2) res) := by
  refine ⟨⟨?_, ?_⟩, ?_⟩
  · simp only [generate_most_used_tags_summary, List.length_take]
    exact inf_le_left
  · exact List.Pairwise.sublist (List.take_sublist _ _) (pairwise_mergeSort_nat _)
  · intro res hres
    simp only [generate_highest_entropy_tags] at hres
    cases hloop : loopScores (entriesCount db jid f start stop)
        (tagGroupCounts (matchRows db jid f.holds start stop)) with
    | error e =>
      rw [hloop] at hres
      exact absurd hres (by simp)
    | ok vs =>
      rw [hloop] at hres
      simp only [Except.ok.injEq] at hres
      rw [← hres]
      constructor
      · simp only [List.length_take]; exact inf_le_left
      · exact List.Pairwise.sublist (List.take_sublist _ _) (pairwise_mergeSort_real _)

/-- Witness for `rankers_top10_sorted`: on `dbTiny` the entropy ranking
returns the singleton ranking with the boundary score 0. -/
theorem rankers_top10_sorted_witness :
    generate_highest_entropy_tags dbTiny 1 TagFilter.all 0 9 = Except.ok [("t", 0)] ∧
    (([("t", (0 : ℝ))] : List (String × ℝ)).length ≤ 10 ∧
      List.Pairwise (fun a b : String × ℝ => b.2 ≤ a.2) [("t", (0 : ℝ))]) := by
  have hg : tagGroupCounts (matchRows dbTiny 1 TagFilter.all.holds 0 9) = [("t", 1)] := by
    decide
  have ht : entriesCount dbTiny 1 TagFilter.all 0 9 = 1 := by decide
  have hstep : scoreStep 1 1 = .ok 0 := by
    rw [scoreStep, if_neg (by norm_num), if_neg (by norm_num), if_pos (by norm_num)]
  have hOk : generate_highest_entropy_tags dbTiny 1 TagFilter.all 0 9 =
      Except.ok [("t", 0)] := by
    simp only [generate_highest_entropy_tags]
    rw [hg, ht]
    simp only [loopScores, hstep]
    rw [List.mergeSort_singleton]
    rfl
  exact ⟨hOk,
    (rankers_top10_sorted dbTiny 1 (fun _ => true) TagFilter.all 0 9).2 [("t", 0)] hOk⟩

/-- C3 counterexample: on an empty journal the matching entry population
is empty (`total == 0`), yet the entropy ranking returns the empty
ranking normally instead of failing with a division-by-zero error. -/
theorem entropy_ranking_zero_total_counterexample :
    entriesCount ⟨[], []⟩ 1 TagFilter.all 0 10 = 0 ∧
    generate_highest_entropy_tags ⟨[], []⟩ 1 TagFilter.all 0 10 = .ok [] := by
  constructor
  · rfl
  · simp [generate_highest_entropy_tags, matchRows, tagGroupCounts, loopScores,
      List.mergeSort_nil]

/-- C3 (amended): when the entry population matching the predicate in
the window is empty, the grouped tag rows are necessarily empty as well,
so the ranking loop never divides and `generate_highest_entropy_tags`
returns an empty ranking with no error. -/
theorem entropy_ranking_empty_on_zero_total (db : JournalDB) (jid : Nat) (f : TagFilter)
    (start stop : Nat) (h : entriesCount db jid f start stop = 0) :
    generate_highest_entropy_tags db jid f start stop = .ok [] := by
  simp only [generate_highest_entropy_tags,
    matchRows_nil_of_entriesCount_zero db jid f start stop h]
  simp [tagGroupCounts, loopScores, List.mergeSort_nil]

/-- Witness for `entropy_ranking_empty_on_zero_total`: a journal with a
tag row but no entries. -/
theorem entropy_ranking_empty_on_zero_total_witness :
    entriesCount ⟨[], [⟨1, 1, "client:a", 1⟩]⟩ 1 TagFilter.all 0 10 = 0 ∧
    generate_highest_entropy_tags ⟨[], [⟨1, 1, "client:a", 1⟩]⟩ 1 TagFilter.all 0 10 =
      .ok [] :=
  ⟨rfl, entropy_ranking_empty_on_zero_total ⟨[], [⟨1, 1, "client:a", 1⟩]⟩ 1
    TagFilter.all 0 10 rfl⟩

/-- Distinct-count monotonicity: a list contained in another has at most
as many distinct elements. -/
theorem dedup_length_le_of_subset {α : Type} [DecidableEq α] {l1 l2 : List α}
    (h : ∀ x ∈ l1, x ∈ l2) : l1.dedup.length ≤ l2.dedup.length := by
  rw [← List.card_toFinset, ← List.card_toFinset]
  exact Finset.card_le_card
    (fun x hx => List.mem_toFinset.mpr (h x (List.mem_toFinset.mp hx)))

/-- C4: in every retention row produced by `week_to_week_retention`,
`num_returning_clients` is at most `wau` — the clients of transitions
landing in a week are among that week's distinct active clients. -/
theorem retention_returning_le_wau (db : JournalDB) (jid start stop : Nat)
    (r : Nat × Nat × Nat) (hr : r ∈ week_to_week_retention db jid start stop) :
    r.2.2 ≤ r.2.1 := by
  simp only [week_to_week_retention] at hr
  rw [List.mem_map] at hr
  obtain ⟨w, hw, hr⟩ := hr
  subst hr
  apply dedup_length_le_of_subset
  intro c hc
  rw [List.mem_map] at hc
  obtain ⟨tr, htr, hcl⟩ := hc
  rw [List.mem_filter] at htr
  obtain ⟨htrT, htrw⟩ := htr
  rw [retentionTransitions, List.mem_flatMap] at htrT
  obtain ⟨a, haCE, hmem⟩ := htrT
  rw [List.mem_map] at hmem
  obtain ⟨b, hbF, hba⟩ := hmem
  have hba2 : (a.1, a.2, b.2) = tr := hba
  subst hba2
  rw [List.mem_filter] at hbF
  obtain ⟨hbCE, hbcond⟩ := hbF
  simp only [Bool.and_eq_true, beq_iff_eq] at hbcond
  obtain ⟨hb2, hb1⟩ := hbcond
  refine List.mem_map.mpr ⟨b, List.mem_filter.mpr ⟨hbCE, htrw⟩, ?_⟩
  exact hb1.trans hcl

/-- Witness for `retention_returning_le_wau` on the spec's scenario:
clients {A,B,C} then {B,C,D} give the second week `wau = 3` and
`num_returning_clients = 2`. -/
theorem retention_returning_le_wau_witness :
    (7, 3, 2) ∈ week_to_week_retention dbRetention 1 0 100 ∧
    ((7, 3, 2) : Nat × Nat × Nat).2.2 ≤ ((7, 3, 2) : Nat × Nat × Nat).2.1 :=
  ⟨by decide, retention_returning_le_wau dbRetention 1 0 100 (7, 3, 2) (by decide)⟩

/-- Summing an indicator of a single value over a duplicate-free list
containing it gives 1. -/
theorem sum_indicator_one {α : Type} [DecidableEq α] {a : α} {D : List α}
    (hN : D.Nodup) (ha : a ∈ D) :
    (D.map (fun g => if a = g then (1 : ℕ) else 0)).sum = 1 := by
  induction D with
  | nil => cases ha
  | cons x D ih =>
    rw [List.map_cons, List.sum_cons]
    rcases List.mem_cons.mp ha with h | h
    · subst h
      rw [if_pos rfl]
      have hzero : (D.map (fun g => if a = g then (1 : ℕ) else 0)).sum = 0 := by
        have hall : ∀ g ∈ D, (if a = g then (1 : ℕ) else 0) = 0 := by
          intro g hg
          rw [if_neg]
          intro he
          exact (List.nodup_cons.mp hN).1 (he ▸ hg)
        rw [List.map_congr_left hall]
        simp
      rw [hzero]
    · have hax : a ≠ x := fun he => (List.nodup_cons.mp hN).1 (he ▸ h)
      rw [if_neg hax, ih (List.nodup_cons.mp hN).2 h]

/-- Partition counting: summing, over a duplicate-free list of keys
covering the image of `f`, the number of elements of `L` in each key's
fibre yields the length of `L`. -/
theorem sum_countP_eq_length {α β : Type} [DecidableEq β] (L : List α) (f : α → β)
    (D : List β) (hN : D.Nodup) (hmem : ∀ x ∈ L, f x ∈ D) :
    (D.map (fun g => L.countP (fun x => f x == g))).sum = L.length := by
  induction L with
  | nil => simp [List.countP_nil]
  | cons x L ih =>
    have hx : f x ∈ D := hmem x (List.mem_cons_self x L)
    have ihh := ih (fun y hy => hmem y (List.mem_cons_of_mem x hy))
    simp only [List.countP_cons]
    rw [List.sum_map_add, ihh]
    have hind : (D.map (fun g => if (f x == g) = true then (1 : ℕ) else 0)).sum = 1 := by
      rw [show (fun g => if (f x == g) = true then (1 : ℕ) else 0)
            = (fun g => if f x = g then (1 : ℕ) else 0) from
          funext fun g => by simp [beq_iff_eq]]
      exact sum_indicator_one hN hx
    rw [hind, List.length_cons]

/-- The running total a distribution histogram accumulates equals the
number of underlying label groups: each group lands in exactly one
count bucket. -/
theorem countsHistogram_total (groups : List (String × ℕ)) :
    ((countsHistogram groups).map (fun h => h.2)).sum = groups.length := by
  rw [countsHistogram]
  have hperm := (List.mergeSort_perm
    (((groups.map (fun g => g.2)).dedup).map
      (fun c => (c, groups.countP (fun g => g.2 == c))))
    (fun a b => decide (b.2 ≤ a.2))).map (fun h : ℕ × ℕ => h.2)
  rw [hperm.sum_eq, List.map_map]
  have hcomp : ((fun h : ℕ × ℕ => h.2) ∘ fun c => (c, groups.countP (fun g => g.2 == c)))
      = fun c => groups.countP (fun g => g.2 == c) := rfl
  rw [hcomp]
  exact sum_countP_eq_length groups (fun g => g.2) _ (List.nodup_dedup _)
    (fun x hx => List.mem_dedup.mpr (List.mem_map_of_mem _ hx))

/-- The distinct labels of the error-co-occurrence join are exactly the
distinct event labels having at least one co-occurring error tag. -/
theorem coLabels_eq_filtered (db : JournalDB) (jid : Nat) (event_name : String)
    (start stop : Nat) :
    ((coOccurrenceRows db jid event_name start stop).map (fun r => r.2)).dedup.length =
      ((((eventRows db jid (event_name ++ ":") start stop).map (fun r => r.2)).dedup).filter
        (hasErrorCoOccurrence db jid event_name start stop)).length := by
  apply List.Perm.length_eq
  apply List.perm_of_nodup_nodup_toFinset_eq (List.nodup_dedup _)
    (List.Nodup.filter _ (List.nodup_dedup _))
  ext l
  simp only [List.mem_toFinset, List.mem_dedup, List.mem_filter, List.mem_map]
  constructor
  · rintro ⟨row, hrow, hl⟩
    rw [coOccurrenceRows, List.mem_flatMap] at hrow
    obtain ⟨ev, hev, hmem2⟩ := hrow
    rw [List.mem_map] at hmem2
    obtain ⟨er, herF, hextra⟩ := hmem2
    have hevrow : ev = row := hextra
    subst hevrow
    rw [List.mem_filter] at herF
    obtain ⟨her, hereq⟩ := herF
    refine ⟨⟨ev, hev, hl⟩, ?_⟩
    rw [hasErrorCoOccurrence, List.any_eq_true]
    refine ⟨ev, hev, ?_⟩
    simp only [Bool.and_eq_true, beq_iff_eq]
    exact ⟨hl, List.any_eq_true.mpr ⟨er, her, hereq⟩⟩
  · rintro ⟨⟨evx, hevx, hevl⟩, hco⟩
    rw [hasErrorCoOccurrence, List.any_eq_true] at hco
    obtain ⟨ev, hev, hcond⟩ := hco
    simp only [Bool.and_eq_true, beq_iff_eq] at hcond
    obtain ⟨hevl2, hany⟩ := hcond
    rw [List.any_eq_true] at hany
    obtain ⟨er, her, hereq⟩ := hany
    refine ⟨ev, ?_, hevl2⟩
    rw [coOccurrenceRows, List.mem_flatMap]
    refine ⟨ev, hev, ?_⟩
    rw [List.mem_map]
    exact ⟨er, List.mem_filter.mpr ⟨her, hereq⟩, rfl⟩

/-- C5: the `"0"` bucket `generate_events_summary` inserts into
`errors_histogram` equals the total number of distinct event labels
minus the number of event labels co-occurring with at least one
`error:` tag. -/
theorem errors_histogram_zero_bucket (db : JournalDB) (jid : Nat) (event_name : String)
    (start stop : Nat) :
    errorsHistogramZero db jid event_name start stop =
      specZeroBucket db jid event_name start stop := by
  simp only [errorsHistogramZero, specZeroBucket]
  rw [countsHistogram_total, countsHistogram_total]
  simp only [labelGroupCounts, List.length_map]
  rw [coLabels_eq_filtered]

/-- Filtering a duplicate-free list for equality with a member yields
exactly that member. -/
theorem filter_beq_singleton {α : Type} [BEq α] [LawfulBEq α] {l : List α} {a : α}
    (hN : l.Nodup) (ha : a ∈ l) : l.filter (fun x => x == a) = [a] := by
  induction l with
  | nil => cases ha
  | cons x l ih =>
    rw [List.filter_cons]
    rcases List.mem_cons.mp ha with h | h
    · subst h
      rw [if_pos (beq_self_eq_true a)]
      have hrest : l.filter (fun x => x == a) = [] :=
        List.filter_eq_nil_iff.mpr
          (fun b hb hba => (List.nodup_cons.mp hN).1 (by rw [← eq_of_beq hba]; exact hb))
      rw [hrest]
    · have hxa : ¬ ((x == a) = true) :=
        fun hba => (List.nodup_cons.mp hN).1 (by rw [eq_of_beq hba]; exact h)
      rw [if_neg hxa]
      exact ih (List.nodup_cons.mp hN).2 h

/-- A `flatMap` whose function is empty everywhere except at one member
of a duplicate-free list, where it is a singleton, is that singleton. -/
theorem flatMap_eq_singleton {α β : Type} {l : List α} {f : α → List β} {a : α} {x : β}
    (hN : l.Nodup) (ha : a ∈ l) (hfa : f a = [x])
    (h0 : ∀ b ∈ l, b ≠ a → f b = []) :
    l.flatMap f = [x] := by
  induction l with
  | nil => cases ha
  | cons y l ih =>
    rw [List.flatMap_cons]
    rcases List.mem_cons.mp ha with h | h
    · subst h
      rw [hfa]
      have hrest : l.flatMap f = [] :=
        List.flatMap_eq_nil_iff.mpr
          (fun b hb => h0 b (List.mem_cons_of_mem a hb)
            (fun hba => (List.nodup_cons.mp hN).1 (hba ▸ hb)))
      rw [hrest, List.append_nil]
    · have hy : f y = [] := h0 y (List.mem_cons_self y l)
        (fun hya => (List.nodup_cons.mp hN).1 (hya ▸ h))
      rw [hy, List.nil_append]
      exact ih (List.nodup_cons.mp hN).2 h
        (fun b hb hbp => h0 b (List.mem_cons_of_mem y hb) hbp)

/-- The dense series has no repeated points. -/
theorem densePoints_nodup (start stop step : Nat) : (densePoints start stop step).Nodup := by
  rw [densePoints]
  split
  · exact List.nodup_nil
  · rename_i hcond
    simp only [Bool.or_eq_true, decide_eq_true_eq, not_or] at hcond
    apply List.Nodup.map _ (List.nodup_range _)
    intro i j hij
    have hmul : i * step = j * step := Nat.add_left_cancel hij
    exact Nat.eq_of_mul_eq_mul_right (Nat.pos_of_ne_zero hcond.1) hmul

/-- C1: for every tag of the distinct matching-tag set and every bucket
of the dense series (under a display mask that separates the series
points), the per-tag time series holds exactly one record for that
(tag, bucket) pair, and its count is the number of matching tag rows
whose creation time falls in that bucket (0 when there are none). -/
theorem time_series_dense_unique (db : JournalDB) (jid : Nat) (filt : String → Bool)
    (mask : Nat → Nat) (start stop step : Nat)
    (hinj : ∀ p ∈ densePoints start stop step, ∀ q ∈ densePoints start stop step,
      mask p = mask q → p = q)
    (s : String) (hs : s ∈ distinctMatchingTags db jid filt start stop)
    (p : Nat) (hp : p ∈ densePoints start stop step) :
    (generate_tags_time_series db jid filt mask start stop step s).filter
      (fun r => r.1 == mask p) =
    [(mask p, bucketCount (matchRows db jid filt start stop) mask (mask p) s)] := by
  have hTagsNodup : (distinctMatchingTags db jid filt start stop).Nodup := by
    rw [distinctMatchingTags]; exact List.nodup_dedup _
  have hflat : ∀ p' ∈ densePoints start stop step,
      (List.filter (fun r : Nat × String × Nat => (r.1 == mask p) && (r.2.1 == s))
        ((distinctMatchingTags db jid filt start stop).map
          (fun s2 => (mask p', s2,
            bucketCount (matchRows db jid filt start stop) mask (mask p') s2))))
      = if p' = p then
          [(mask p, s, bucketCount (matchRows db jid filt start stop) mask (mask p) s)]
        else [] := by
    intro p' hp'
    rw [List.filter_map]
    by_cases hpp : p' = p
    · subst hpp
      rw [if_pos rfl]
      have hpred : ((fun r : Nat × String × Nat => (r.1 == mask p') && (r.2.1 == s)) ∘
          (fun s2 => (mask p', s2,
            bucketCount (matchRows db jid filt start stop) mask (mask p') s2)))
          = fun s2 : String => s2 == s := by
        funext s2
        simp only [Function.comp_apply, beq_self_eq_true, Bool.true_and]
      rw [hpred, filter_beq_singleton hTagsNodup hs]
      rfl
    · rw [if_neg hpp]
      have hmm : (mask p' == mask p) = false :=
        beq_eq_false_iff_ne.mpr (fun hmk => hpp (hinj p' hp' p hp hmk))
      have hpred : ((fun r : Nat × String × Nat => (r.1 == mask p) && (r.2.1 == s)) ∘
          (fun s2 => (mask p', s2,
            bucketCount (matchRows db jid filt start stop) mask (mask p') s2)))
          = fun _ : String => false := by
        funext s2
        simp only [Function.comp_apply, hmm, Bool.false_and]
      rw [hpred]
      simp
  have key : ((timeSeriesRows db jid filt mask start stop step).filter
      (fun r : Nat × String × Nat => (r.1 == mask p) && (r.2.1 == s))).map
        (fun r : Nat × String × Nat => (r.1, r.2.2))
      = [(mask p, bucketCount (matchRows db jid filt start stop) mask (mask p) s)] := by
    simp only [timeSeriesRows]
    rw [List.filter_flatMap]
    rw [flatMap_eq_singleton (densePoints_nodup start stop step) hp
      ((hflat p hp).trans (if_pos rfl))
      (fun b hb hbp => (hflat b hb).trans (if_neg hbp))]
    rfl
  rw [generate_tags_time_series, List.filter_map]
  have hcomp : ((fun r : Nat × Nat => r.1 == mask p) ∘
      fun r : Nat × String × Nat => (r.1, r.2.2))
      = fun r : Nat × String × Nat => r.1 == mask p := rfl
  rw [hcomp, List.filter_filter]
  have hperm := ((List.mergeSort_perm (timeSeriesRows db jid filt mask start stop step)
      (fun a b => decide (b.1 ≤ a.1))).filter
    (fun r : Nat × String × Nat => (r.1 == mask p) && (r.2.1 == s))).map
    (fun r : Nat × String × Nat => (r.1, r.2.2))
  exact List.perm_singleton.mp (hperm.trans (by rw [key]))

/-- Witness for `time_series_dense_unique` on `dbTiny` with the identity
mask, window `(0, 9)`, step 3, tag `"t"` and bucket point 3. -/
theorem time_series_dense_unique_witness :
    (∀ p ∈ densePoints 0 9 3, ∀ q ∈ densePoints 0 9 3, (fun t => t) p = (fun t => t) q → p = q) ∧
    "t" ∈ distinctMatchingTags dbTiny 1 (fun _ => true) 0 9 ∧
    3 ∈ densePoints 0 9 3 ∧
    (generate_tags_time_series dbTiny 1 (fun _ => true) (fun t => t) 0 9 3 "t").filter
        (fun r => r.1 == (fun t => t) 3) =
      [((fun t => t) 3, bucketCount (matchRows dbTiny 1 (fun _ => true) 0 9) (fun t => t) ((fun t => t) 3) "t")] :=
  ⟨by decide, by decide, by decide,
    time_series_dense_unique dbTiny 1 (fun _ => true) (fun t => t) 0 9 3
      (by decide) "t" (by decide) 3 (by decide)⟩

/-- C10: for every statistics type other than `session`, `client` and
`errors` — including strings outside the recognized four —
`get_statistics` raises no invalid-type error and follows the stats
path: the constructed filter is the match-all filter, and on success the
document's data carries the `most_common_tags`, `highest_entropy_tags`
and `tags` keys (plus `entries` for the `year` timescale). -/
theorem unknown_type_follows_stats_path (V : Type) (now : String) (o : SubOracles V)
    (stype timescale : String) (he mu : List String × V) (ts ev : V)
    (h1 : stype ≠ "session") (h2 : stype ≠ "client") (h3 : stype ≠ "errors")
    (hhe : o.highestEntropy .all = .ok he)
    (hmu : o.mostUsed .all = .ok mu)
    (hts : o.timeSeries
      (if stype = "stats" then FilterK.inSet ((mu.1 ++ he.1).dedup) else .all) = .ok ts)
    (hev : timescale = "year" → o.entriesByDays .all = .ok ev) :
    get_statistics now o stype timescale =
      { created_at := now, schema := schemaUrl stype,
        data := (if timescale = "year" then [("entries", ev)] else []) ++
          [("most_common_tags", mu.2), ("highest_entropy_tags", he.2), ("tags", ts)] } := by
  rw [get_statistics]
  have hsc : ¬(stype = "session" ∨ stype = "client") := by
    rintro (h | h)
    · exact h1 h
    · exact h2 h
  rw [if_neg hsc]
  by_cases hy : timescale = "year"
  · simp [statsBranch, h3, hy, hhe, hmu, hts, hev hy]
  · simp [statsBranch, h3, hy, hhe, hmu, hts]

/-- Witness for `unknown_type_follows_stats_path` at the unrecognized
type string `"bogus"` with constant oracles. -/
theorem unknown_type_follows_stats_path_witness :
    get_statistics "2024-01-01" constOracles "bogus" "week" =
      { created_at := "2024-01-01", schema := schemaUrl "bogus",
        data := [("most_common_tags", 3), ("highest_entropy_tags", 2), ("tags", 4)] } :=
  unknown_type_follows_stats_path Nat "2024-01-01" constOracles "bogus" "week"
    ([], 2) ([], 3) 4 1 (by decide) (by decide) (by decide) rfl rfl rfl
    (fun h => absurd h (by decide))
